import Mathlib

/-!
Verification of the image-sanitizer format-detection and structural-validation
engine (sfImageSanitizer).  The definitions below are a shallow embedding of
the JavaScript source: byte buffers are lists of naturals (each element a byte
value 0..255 as produced by `Uint8Array` indexing), `DataView` reads with an
out-of-range offset are modelled by `Option`/`Except` (the source throws a
`RangeError` there), and `while` loops that jump by data-dependent strides are
modelled by structurally recursive functions carrying an explicit fuel
argument that is chosen large enough (each loop iteration of the source
advances its index by at least one, so `length + 1` iterations can never be
exhausted; where it matters, a fuel-stability lemma is proved).
Display-only fields of metadata items (hex dumps, human-readable marker
descriptions, `details` text) that no verdict or control flow ever reads are
not modelled; this is noted at each embedded function.
-/

deriving instance DecidableEq for Except

namespace ImageSanitizer

/-- A byte buffer: the contents of a `Uint8Array`, one natural per byte. -/
abbrev Bytes := List Nat

/-- `bytes[i]` for an in-bounds index; the source only indexes inside guards
that establish the bound, so the default 0 is never observed there. -/
def byteAt (bytes : Bytes) (i : Nat) : Nat := bytes.getD i 0

/-- `Uint8Array.prototype.slice(a, b)` for `0 ≤ a ≤ b`. -/
def sliceBytes (bytes : Bytes) (a b : Nat) : Bytes := (bytes.drop a).take (b - a)

/-- `DataView.getUint16(i, false)` (big endian), total form used under bounds
guards of the source. -/
def readU16BE (bytes : Bytes) (i : Nat) : Nat :=
  byteAt bytes i * 256 + byteAt bytes (i + 1)

/-- `DataView.getUint32(i, false)` (big endian), total form used under bounds
guards of the source. -/
def readU32BE (bytes : Bytes) (i : Nat) : Nat :=
  byteAt bytes i * 16777216 + byteAt bytes (i + 1) * 65536 +
    byteAt bytes (i + 2) * 256 + byteAt bytes (i + 3)

/-- `DataView.getUint16(i, true)` (little endian), total form. -/
def readU16LE (bytes : Bytes) (i : Nat) : Nat :=
  byteAt bytes (i + 1) * 256 + byteAt bytes i

/-- `DataView.getUint32(i, true)` (little endian), total form. -/
def readU32LE (bytes : Bytes) (i : Nat) : Nat :=
  byteAt bytes (i + 3) * 16777216 + byteAt bytes (i + 2) * 65536 +
    byteAt bytes (i + 1) * 256 + byteAt bytes i

/-- Bounds-checked `DataView.getUint16(i, false)`: `none` models the
`RangeError` the source throws on an out-of-range read. -/
def readU16BEOpt (bytes : Bytes) (i : Nat) : Option Nat :=
  if i + 2 ≤ bytes.length then some (readU16BE bytes i) else none

/-- Bounds-checked `DataView.getUint32(i, false)`. -/
def readU32BEOpt (bytes : Bytes) (i : Nat) : Option Nat :=
  if i + 4 ≤ bytes.length then some (readU32BE bytes i) else none

/-- Bounds-checked `DataView.getUint16(i, true)`. -/
def readU16LEOpt (bytes : Bytes) (i : Nat) : Option Nat :=
  if i + 2 ≤ bytes.length then some (readU16LE bytes i) else none

/-- Bounds-checked `DataView.getUint32(i, true)`. -/
def readU32LEOpt (bytes : Bytes) (i : Nat) : Option Nat :=
  if i + 4 ≤ bytes.length then some (readU32LE bytes i) else none

/-- `DataView.getInt32(_, true)` reinterprets the 32-bit value as signed. -/
def toInt32 (n : Nat) : Int :=
  if n < 2147483648 then (n : Int) else (n : Int) - 4294967296

/-- Does the list start with the given byte pattern? (helper) -/
def seqStartsWith : Bytes → Bytes → Bool
  | _, [] => true
  | [], _ :: _ => false
  | a :: l, b :: p => (a == b) && seqStartsWith l p

/-- Does the byte pattern occur contiguously in the list?  Models
`String.prototype.includes` restricted to an ASCII needle, searched over the
decoded text at the byte level (the needles used by the source, such as
`<svg`, are pure ASCII, and UTF-8 decoding maps exactly the corresponding
byte run to that substring). -/
def seqContains : Bytes → Bytes → Bool
  | [], pat => pat.isEmpty
  | a :: rest, pat => seqStartsWith (a :: rest) pat || seqContains rest pat

/-- ASCII lower-casing of one byte: models `String.prototype.toLowerCase`
composed with UTF-8 decoding, restricted to the ASCII range that the
signature heuristics of the source actually compare against. -/
def lowerByte (b : Nat) : Nat := if 0x41 ≤ b ∧ b ≤ 0x5A then b + 0x20 else b

/-- ASCII upper-casing of a character (models
`String.prototype.toUpperCase`; the format names it is applied to are all
ASCII). -/
def upperChar (c : Char) : Char :=
  if 'a' ≤ c ∧ c ≤ 'z' then Char.ofNat (c.toNat - 32) else c

/-- ASCII upper-casing of a string. -/
def upperAscii (s : String) : String := String.mk (s.data.map upperChar)

/-- `sfFileFormatValidator._checkBytes` (sfImageSanitizerUI.js): compare the
expected byte sequence against the buffer at `offset`, returning `false` when
fewer than `sig.length` bytes are available from `offset` on. -/
def checkBytes (bytes : Bytes) (sig : Bytes) (offset : Nat) : Bool :=
  if bytes.length < offset + sig.length then false
  else seqStartsWith (bytes.drop offset) sig

/-! ### Signature matchers (`sfFileFormatValidator.formatCheckers`) -/

def pngSignature : Bytes := [0x89, 0x50, 0x4E, 0x47, 0x0D, 0x0A, 0x1A, 0x0A]

def acTLBytes : Bytes := [0x61, 0x63, 0x54, 0x4C]

def idatBytes : Bytes := [0x49, 0x44, 0x41, 0x54]

/-- The chunk walk of `sfFileFormatValidator._isAPNG`: starting at offset 8,
read each chunk's 4-byte big-endian length and 4-byte type, answer `true` on
an `acTL` type, `false` on an `IDAT` type, and otherwise advance by
`12 + length` (length, type and CRC account for the 12-byte overhead).  The
walk ends (`false`) when fewer than 8 bytes remain.  The source's
`nextChunkPos <= i` break is kept although it can never fire over naturals
(the stride is at least 12).  The `while` loop is modelled with fuel; every
iteration advances `i` by at least 12, so the `bytes.length + 1` fuel supplied
by `isAPNG` is never exhausted (`isAPNGWalk_fuel_irrelevant` below). -/
def isAPNGWalk (bytes : Bytes) : Nat → Nat → Bool
  | 0, _ => false
  | fuel + 1, i =>
    if i < bytes.length then
      if i + 8 > bytes.length then false
      else
        let chunkLen := readU32BE bytes i
        let chunkType := sliceBytes bytes (i + 4) (i + 8)
        if chunkType = acTLBytes then true
        else if chunkType = idatBytes then false
        else
          let nextChunkPos := i + 12 + chunkLen
          if nextChunkPos ≤ i then false
          else isAPNGWalk bytes fuel nextChunkPos
    else false

/-- `sfFileFormatValidator._isAPNG`. -/
def isAPNG (bytes : Bytes) : Bool := isAPNGWalk bytes (bytes.length + 1) 8

/-- A matcher verdict: `none` is no match; on a match, the optional
`magicNumber` bytes the source attaches (`null` for SVG). -/
abbrev CheckerResult := Option (Option Bytes)

def checkerPng (bytes : Bytes) : CheckerResult :=
  if checkBytes bytes pngSignature 0 then some (some pngSignature) else none

def checkerApng (bytes : Bytes) : CheckerResult :=
  if (checkerPng bytes).isSome && isAPNG bytes then some (some pngSignature)
  else none

def checkerJpeg (bytes : Bytes) : CheckerResult :=
  if checkBytes bytes [0xFF, 0xD8] 0 then some (some (bytes.take 3)) else none

def checkerGif (bytes : Bytes) : CheckerResult :=
  if checkBytes bytes [0x47, 0x49, 0x46, 0x38] 0 then
    some (some [0x47, 0x49, 0x46, 0x38])
  else none

def checkerWebp (bytes : Bytes) : CheckerResult :=
  if checkBytes bytes [0x52, 0x49, 0x46, 0x46] 0 &&
      checkBytes bytes [0x57, 0x45, 0x42, 0x50] 8 then
    some (some (bytes.take 12))
  else none

def checkerSvg (bytes : Bytes) : CheckerResult :=
  if seqContains ((bytes.take 256).map lowerByte) [0x3C, 0x73, 0x76, 0x67] then
    some none
  else none

def checkerBmp (bytes : Bytes) : CheckerResult :=
  if checkBytes bytes [0x42, 0x4D] 0 then some (some [0x42, 0x4D]) else none

def checkerIco (bytes : Bytes) : CheckerResult :=
  if checkBytes bytes [0x00, 0x00, 0x01, 0x00] 0 then
    some (some [0x00, 0x00, 0x01, 0x00])
  else none

def tiffLESignature : Bytes := [0x49, 0x49, 0x2A, 0x00]

def tiffBESignature : Bytes := [0x4D, 0x4D, 0x00, 0x2A]

def checkerTiff (bytes : Bytes) : CheckerResult :=
  if checkBytes bytes tiffLESignature 0 then some (some tiffLESignature)
  else if checkBytes bytes tiffBESignature 0 then some (some tiffBESignature)
  else none

def jp2Signature : Bytes :=
  [0x00, 0x00, 0x00, 0x0C, 0x6A, 0x50, 0x20, 0x20, 0x0D, 0x0A, 0x87, 0x0A]

def checkerJpeg2000 (bytes : Bytes) : CheckerResult :=
  if checkBytes bytes jp2Signature 0 then some (some jp2Signature) else none

def ftypBytes : Bytes := [0x66, 0x74, 0x79, 0x70]

def checkerAvif (bytes : Bytes) : CheckerResult :=
  if checkBytes bytes ftypBytes 4 then
    if sliceBytes bytes 8 12 = [0x61, 0x76, 0x69, 0x66] then
      some (some (sliceBytes bytes 4 12))
    else none
  else none

def heicBrands : List Bytes :=
  [[0x68, 0x65, 0x69, 0x63], [0x68, 0x65, 0x69, 0x78],
   [0x68, 0x65, 0x76, 0x63], [0x68, 0x65, 0x69, 0x6D]]

def checkerHeic (bytes : Bytes) : CheckerResult :=
  if checkBytes bytes ftypBytes 4 then
    if heicBrands.contains (sliceBytes bytes 8 12) then
      some (some (sliceBytes bytes 4 12))
    else none
  else none

/-- `sfFileFormatValidator.formatCheckers`, in the insertion order of the
source object literal (this order is the enumeration order of the all-formats
fallback pass of `getFormat`). -/
def formatCheckers : List (String × (Bytes → CheckerResult)) :=
  [("png", checkerPng), ("apng", checkerApng), ("jpeg", checkerJpeg),
   ("gif", checkerGif), ("webp", checkerWebp), ("svg", checkerSvg),
   ("bmp", checkerBmp), ("ico", checkerIco), ("tiff", checkerTiff),
   ("jpeg2000", checkerJpeg2000), ("avif", checkerAvif),
   ("heic", checkerHeic)]

/-- `sfFileFormatValidator._getPrimaryFormatsFromExtension`. -/
def primaryFormatsFromExtension (extension : String) : List String :=
  match extension with
  | "jpg" | "jpeg" | "jfif" => ["jpeg"]
  | "png" => ["apng", "png"]
  | "gif" => ["gif"]
  | "webp" => ["webp"]
  | "svg" => ["svg"]
  | "bmp" => ["bmp"]
  | "ico" => ["ico"]
  | "tif" | "tiff" => ["tiff"]
  | "jp2" | "jpx" => ["jpeg2000"]
  | "avif" => ["avif"]
  | "heic" | "heif" => ["heic"]
  | _ => []

/-- Run the named matchers in order, returning the first match together with
its format name (the body of both passes of `getFormat`; a name with no
matcher is skipped, as the source's optional chaining does). -/
def runCheckers (bytes : Bytes) : List String → Option (String × Option Bytes)
  | [] => none
  | f :: rest =>
    match formatCheckers.lookup f with
    | none => runCheckers bytes rest
    | some checker =>
      match checker bytes with
      | some magic => some (f, magic)
      | none => runCheckers bytes rest

def allFormatNames : List String := formatCheckers.map Prod.fst

/-- `sfFileFormatValidator.getFormat`: first pass over the primary candidates
derived from the extension, then a fallback pass over all remaining matchers
in the fixed enumeration order. -/
def getFormat (bytes : Bytes) (extension : String) :
    Option (String × Option Bytes) :=
  let primaryFormats := primaryFormatsFromExtension extension
  match runCheckers bytes primaryFormats with
  | some r => some r
  | none =>
    runCheckers bytes (allFormatNames.filter (fun f => !(primaryFormats.contains f)))

/-- `sfFileFormatValidator.isExtensionValid`.  `none` models the `null`
detected format (`!detectedFormat` in the source is also truthy for the empty
string, mirrored here). -/
def isExtensionValid (detectedFormat : Option String) (extension : String) :
    Bool :=
  match detectedFormat with
  | none => false
  | some f =>
    if f = "" then false
    else if f = "apng" ∧ extension = "png" then true
    else if f = "png" ∧ extension = "apng" then false
    else (primaryFormatsFromExtension extension).contains f

/-! ### Structural verification (`sfFileFormatValidator.verifyStructure`) -/

structure StructuralVerification where
  isValid : Bool
  reason : Option String
  warning : Option String := none
deriving Repr, DecidableEq

def iendBytes : Bytes := [0x49, 0x45, 0x4E, 0x44]

def pngIendMissingReason : String :=
  "PNG 파일의 종료(IEND) 청크가 손상되었거나 존재하지 않습니다."

/-- `sfFileFormatValidator._verifyPNGStructure`: the 4 bytes at offset
`length - 8` must read `IEND`.  For buffers shorter than 8 bytes the source
computes a negative offset, for which its slice comparison always fails; the
guard below reproduces exactly that behaviour over naturals. -/
def verifyPNGStructure (bytes : Bytes) : StructuralVerification :=
  if 8 ≤ bytes.length ∧ checkBytes bytes iendBytes (bytes.length - 8) then
    { isValid := true, reason := none }
  else { isValid := false, reason := some pngIendMissingReason }

/-- The EOI search loop of `sfFileFormatValidator._verifyJPEGStructure`: is
there an adjacent byte pair `FF D9` anywhere in the buffer? -/
def hasEOIMarker : Bytes → Bool
  | a :: b :: rest => (a == 0xFF && b == 0xD9) || hasEOIMarker (b :: rest)
  | _ => false

def jpegEoiMissingReason : String :=
  "JPEG 파일의 종료(EOI) 마커를 찾을 수 없습니다."

/-- `sfFileFormatValidator._verifyJPEGStructure`. -/
def verifyJPEGStructure (bytes : Bytes) : StructuralVerification :=
  if hasEOIMarker bytes then
    { isValid := true, reason := none, warning := none }
  else { isValid := false, reason := some jpegEoiMissingReason }

/-- `sfFileFormatValidator.verifyStructure`: only PNG/APNG and JPEG carry a
structural check; every other format string falls through to the
unconditionally valid default. -/
def verifyStructure (format : String) (fileBytes : Bytes) :
    StructuralVerification :=
  match format with
  | "png" | "apng" => verifyPNGStructure fileBytes
  | "jpeg" => verifyJPEGStructure fileBytes
  | _ => { isValid := true, reason := none }

/-! ### Dimension parsing (`sfFileFormatValidator.getDimensions`) -/

structure Dimensions where
  width : Int
  height : Int
deriving Repr, DecidableEq

/-- `sfFileFormatValidator._parsePNGDimensions`; `.error` marks the
out-of-range `DataView` reads on which the source throws (caught by
`getDimensions`). -/
def parsePNGDimensions (bytes : Bytes) : Except Unit (Option Dimensions) :=
  if checkBytes bytes [0x49, 0x48, 0x44, 0x52] 12 then
    match readU32BEOpt bytes 16, readU32BEOpt bytes 20 with
    | some w, some h => .ok (some ⟨(w : Int), (h : Int)⟩)
    | _, _ => .error ()
  else .ok none

/-- The marker-hopping loop of `sfFileFormatValidator._parseJPEGDimensions`
(the source condition `i < bytes.length - 8` is written `i + 8 < length`,
which is the same inequality over the integers).  All its reads are in
bounds, so the loop never throws; fuel models the `for` loop (each iteration
advances `i` by at least 1, so fuel `bytes.length + 1` from start index 4 is
never exhausted). -/
def parseJPEGDimensionsLoop (bytes : Bytes) : Nat → Nat → Option Dimensions
  | 0, _ => none
  | fuel + 1, i =>
    if i + 8 < bytes.length then
      if byteAt bytes i = 0xFF then
        let marker := byteAt bytes (i + 1)
        if marker = 0xC0 ∨ marker = 0xC2 then
          some ⟨(readU16BE bytes (i + 7) : Int), (readU16BE bytes (i + 5) : Int)⟩
        else
          let segmentLength := byteAt bytes (i + 2) * 256 + byteAt bytes (i + 3)
          parseJPEGDimensionsLoop bytes fuel (i + segmentLength + 2)
      else parseJPEGDimensionsLoop bytes fuel (i + 1)
    else none

def parseJPEGDimensions (bytes : Bytes) : Except Unit (Option Dimensions) :=
  .ok (parseJPEGDimensionsLoop bytes (bytes.length + 1) 4)

/-- `sfFileFormatValidator._parseGIFDimensions` (fixed-offset reads that
throw on buffers shorter than 10 bytes). -/
def parseGIFDimensions (bytes : Bytes) : Except Unit (Option Dimensions) :=
  match readU16LEOpt bytes 6, readU16LEOpt bytes 8 with
  | some w, some h => .ok (some ⟨(w : Int), (h : Int)⟩)
  | _, _ => .error ()

/-- `sfFileFormatValidator._parseBMPDimensions` (signed 32-bit reads; the
height is passed through `Math.abs`). -/
def parseBMPDimensions (bytes : Bytes) : Except Unit (Option Dimensions) :=
  match readU32LEOpt bytes 18, readU32LEOpt bytes 22 with
  | some w, some h => .ok (some ⟨toInt32 w, ((toInt32 h).natAbs : Int)⟩)
  | _, _ => .error ()

def ihdrBoxBytes : Bytes := [0x69, 0x68, 0x64, 0x72]

/-- The `ihdr` search loop of
`sfFileFormatValidator._parseJPEG2000Dimensions`: scan byte-by-byte for the
box signature; on a hit at `i`, the height read at `i + 4` is in bounds but
the width read at `i + 8` may throw (caught by `getDimensions`). -/
def parseJPEG2000DimensionsLoop (bytes : Bytes) :
    Nat → Nat → Except Unit (Option Dimensions)
  | 0, _ => .ok none
  | fuel + 1, i =>
    if i + 8 < bytes.length then
      if checkBytes bytes ihdrBoxBytes i then
        match readU32BEOpt bytes (i + 4), readU32BEOpt bytes (i + 8) with
        | some h, some w => .ok (some ⟨(w : Int), (h : Int)⟩)
        | _, _ => .error ()
      else parseJPEG2000DimensionsLoop bytes fuel (i + 1)
    else .ok none

def parseJPEG2000Dimensions (bytes : Bytes) : Except Unit (Option Dimensions) :=
  parseJPEG2000DimensionsLoop bytes (bytes.length + 1) 0

/-- `sfFileFormatValidator.getDimensions`: dispatch on the format string;
formats without a parser return `null`, and the surrounding `try`/`catch`
converts any parser exception into `null` as well, so the function never
throws. -/
def getDimensions (format : String) (bytes : Bytes) : Option Dimensions :=
  let attempt : Except Unit (Option Dimensions) :=
    match format with
    | "png" | "apng" => parsePNGDimensions bytes
    | "jpeg" => parseJPEGDimensions bytes
    | "gif" => parseGIFDimensions bytes
    | "bmp" => parseBMPDimensions bytes
    | "jpeg2000" => parseJPEG2000Dimensions bytes
    | _ => .ok none
  match attempt with
  | .ok d => d
  | .error _ => none

/-! ### The streaming analyzer's verdict (`sfFileFormatAnalyzer.analyze`)

The streaming plumbing (progress callbacks, chunk copying) is pure data
movement; the verdict is a function of the first chunk (fed to `getFormat`
and `getDimensions`), of the fully accumulated buffer (fed to
`verifyStructure`) and of the file extension.  Both are passed explicitly
below.  Two pass-through fields of the source's verdict object are not
modelled: `firstChunk` (the raw chunk echoed back for the UI hex view) and
`structuralVerificationWarning` (a copy of
`structuralVerification.warning`). -/

structure AnalysisVerdict where
  isValid : Bool
  /-- `none` models the short-circuit verdict of the source, whose object
  literal omits the `isExtensionValid` field entirely (reading it yields
  `undefined`, which is falsy). -/
  isExtensionValid : Option Bool
  detectedFormat : Option String
  magicNumber : Option Bytes
  extension : String
  dimensions : Option Dimensions
  structuralVerification : StructuralVerification
  reason : Option String
deriving Repr, DecidableEq

def unsupportedFormatReason : String := "지원하지 않는 파일 형식입니다."

def formatUnknownReason : String := "형식 식별 불가"

/-- The extension/format mismatch reason built by the source's template
string. -/
def mismatchReason (format extension : String) : String :=
  "파일의 실제 형식(" ++ upperAscii format ++ ")과 확장자(." ++ extension ++
    ")가 일치하지 않습니다."

/-- `sfFileFormatAnalyzer.analyze`, as the pure verdict construction it
performs once streaming is done. -/
def analyze (firstChunk fullFileBytes : Bytes) (extension : String) :
    AnalysisVerdict :=
  match getFormat firstChunk extension with
  | none =>
    { isValid := false
      isExtensionValid := none
      detectedFormat := none
      magicNumber := none
      extension := extension
      dimensions := none
      structuralVerification :=
        { isValid := false, reason := some formatUnknownReason }
      reason := some unsupportedFormatReason }
  | some (format, magicNumber) =>
    let structuralVerification := verifyStructure format fullFileBytes
    let extensionOk := isExtensionValid (some format) extension
    let finalIsValid := extensionOk && structuralVerification.isValid
    { isValid := finalIsValid
      isExtensionValid := some extensionOk
      detectedFormat := some format
      magicNumber := magicNumber
      extension := extension
      dimensions := getDimensions format firstChunk
      structuralVerification := structuralVerification
      reason :=
        if finalIsValid then none
        else if ¬ extensionOk then some (mismatchReason format extension)
        else structuralVerification.reason }

/-! ### WebP chunk scanner (`sfMetaScannerWebp.scan`)

The embedding records, for each visited RIFF sub-chunk, the offset at which
the loop found it and its 4-byte chunk id (the source additionally renders a
human-readable description per chunk id and logs the offset; those strings
are display-only).  `aborted` is the abnormal-length break that pushes the
"스캔을 중단합니다" error. -/

structure WebpWalkOut where
  chunks : List (Nat × Bytes)
  /-- The abnormal-length break of the source, which pushes the one
  "스캔을 중단합니다" error before stopping. -/
  aborted : Bool
deriving Repr, DecidableEq

/-- The cursor advance of the RIFF sub-chunk loop: `8 + size` past the chunk
header at `i`, plus one padding byte when the declared payload size is odd
(the `chunkSize % 2 !== 0` increment of the source). -/
def webpNextChunkPos (i chunkSize : Nat) : Nat :=
  i + 8 + chunkSize + (if chunkSize % 2 ≠ 0 then 1 else 0)

/-- The RIFF sub-chunk loop: while at least the 8-byte chunk header remains
(`i < bytes.length - 8` in the source, i.e. `i + 8 < length`), read the
4-byte id and 4-byte little-endian size, then advance by `webpNextChunkPos`.
Each iteration advances `i` by at least 8, so the `bytes.length + 1` fuel
supplied by `webpScan` is never exhausted. -/
def webpWalk (bytes : Bytes) : Nat → Nat → WebpWalkOut
  | 0, _ => ⟨[], false⟩
  | fuel + 1, i =>
    if i + 8 < bytes.length then
      let chunkId := sliceBytes bytes i (i + 4)
      let chunkSize := readU32LE bytes (i + 4)
      let nextChunkPos := webpNextChunkPos i chunkSize
      if nextChunkPos ≤ i ∨ nextChunkPos > bytes.length then
        ⟨[(i, chunkId)], true⟩
      else
        let rest := webpWalk bytes fuel nextChunkPos
        ⟨(i, chunkId) :: rest.chunks, rest.aborted⟩
    else ⟨[], false⟩

structure WebpScanResult where
  headerOk : Bool
  chunks : List (Nat × Bytes)
  aborted : Bool
deriving Repr, DecidableEq

/-- `sfMetaScannerWebp.scan`: verify the 12-byte `RIFF`/`WEBP` header (string
comparison of the decoded slices, i.e. byte equality), then walk the
sub-chunks from offset 12. -/
def webpScan (bytes : Bytes) : WebpScanResult :=
  if sliceBytes bytes 0 4 = [0x52, 0x49, 0x46, 0x46] ∧
      sliceBytes bytes 8 12 = [0x57, 0x45, 0x42, 0x50] then
    let walk := webpWalk bytes (bytes.length + 1) 12
    ⟨true, walk.chunks, walk.aborted⟩
  else ⟨false, [], false⟩

/-! ### Generic scan results and the ICO scanner -/

/-- The `{ errors, metadata, skipped }` result object resolved by the
per-format scanners; metadata items are their key/value string pairs.
`warnings` and `reason` are optional because only some result objects of the
source carry them. -/
structure ScanResult where
  errors : List String
  metadata : List (String × String)
  skipped : Bool
  warnings : Option (List String) := none
  reason : Option String := none
deriving Repr, DecidableEq

def icoTooSmallMsg : String :=
  "파일이 너무 작아 유효한 ICO 헤더를 포함할 수 없습니다."

def icoBadSignatureMsg : String := "유효한 ICO 파일 시그니처가 아닙니다."

/-- The directory-entry loop of `sfMetaScannerIco.scan`: `remaining` counts
the entries still to visit and `idx` the current entry index; an entry
extending past the buffer pushes one error and breaks.  (The source renders
the byte size with the locale-dependent `toLocaleString`; plain decimal is
used here, display-only.) -/
def icoEntries (bytes : Bytes) : Nat → Nat → List (String × String) × List String
  | 0, _ => ([], [])
  | remaining + 1, idx =>
    let entryOffset := 6 + idx * 16
    if entryOffset + 16 > bytes.length then
      ([], ["이미지 #" ++ toString (idx + 1) ++
            "의 디렉토리 엔트리가 파일 크기를 벗어납니다."])
    else
      let w0 := byteAt bytes entryOffset
      let h0 := byteAt bytes (entryOffset + 1)
      let width := if w0 = 0 then 256 else w0
      let height := if h0 = 0 then 256 else h0
      let bpp := readU16LE bytes (entryOffset + 6)
      let sizeInBytes := readU32LE bytes (entryOffset + 8)
      let dataOffset := readU32LE bytes (entryOffset + 12)
      let item := ("Image #" ++ toString (idx + 1),
        toString width ++ "x" ++ toString height ++ ", " ++ toString bpp ++
        "-bit, " ++ toString sizeInBytes ++ " bytes at offset " ++
        toString dataOffset)
      let rest := icoEntries bytes remaining (idx + 1)
      (item :: rest.1, rest.2)

/-- `sfMetaScannerIco.scan`: note that the too-small branch resolves
`skipped: true` together with a pushed error. -/
def icoScan (bytes : Bytes) : ScanResult :=
  if bytes.length < 6 then
    { errors := [icoTooSmallMsg], metadata := [], skipped := true }
  else
    let reserved := readU16LE bytes 0
    let imageType := readU16LE bytes 2
    let imageCount := readU16LE bytes 4
    if reserved ≠ 0 ∨ imageType ≠ 1 then
      { errors := [icoBadSignatureMsg], metadata := [], skipped := false }
    else
      let entries := icoEntries bytes imageCount 0
      { errors := entries.2
        metadata := ("ICO Header", "Windows Icon Resource") ::
          ("Image Count", toString imageCount ++ "개의 이미지가 포함됨") ::
          entries.1
        skipped := false }

/-- The `default` branch of `sfMetadataAnalyzer.analyze` (the dispatcher):
formats without a dedicated scanner get a `skipped: true` result with empty
errors, warnings and metadata.  (`format || "알 수 없음"` is falsy for both
`null` and the empty string.) -/
def metadataUnsupportedResult (format : Option String) : ScanResult :=
  { errors := []
    metadata := []
    skipped := true
    warnings := some []
    reason := some ("이 형식(" ++
      (match format with
       | some f => if f = "" then "알 수 없음" else f
       | none => "알 수 없음") ++
      ")은 현재 메타데이터 분석을 지원하지 않습니다.") }

/-! ### TIFF scanner (`sfMetaScannerTiff.scan`)

The IFD loop keeps following 4-byte next-IFD offsets and stops only when the
offset is 0 (or an offset lies past the buffer, which breaks with an error).
It has no visited-offset or forward-progress guard, so it is modelled with an
explicit fuel argument: `none` means the fuel ran out, i.e. the source loop
is still running after that many iterations.  A `DataView` read past the end
inside the loop throws in the source (hanging the promise); that is the
`.error` outcome. -/

/-- Endianness-directed `DataView.getUint16`. -/
def readU16At (bytes : Bytes) (little : Bool) (i : Nat) : Nat :=
  if little then readU16LE bytes i else readU16BE bytes i

/-- Endianness-directed, bounds-checked `DataView.getUint16`. -/
def readU16AtOpt (bytes : Bytes) (little : Bool) (i : Nat) : Option Nat :=
  if little then readU16LEOpt bytes i else readU16BEOpt bytes i

/-- Endianness-directed `DataView.getUint32`. -/
def readU32At (bytes : Bytes) (little : Bool) (i : Nat) : Nat :=
  if little then readU32LE bytes i else readU32BE bytes i

/-- Endianness-directed, bounds-checked `DataView.getUint32`. -/
def readU32AtOpt (bytes : Bytes) (little : Bool) (i : Nat) : Option Nat :=
  if little then readU32LEOpt bytes i else readU32BEOpt bytes i

/-- `sfMetaScannerTiff.TIFF_TAGS`. -/
def tiffTags : List (Nat × String × String) :=
  [(0x0100, "ImageWidth", "이미지 너비"),
   (0x0101, "ImageLength", "이미지 높이 (세로)"),
   (0x0102, "BitsPerSample", "샘플 당 비트 수"),
   (0x0103, "Compression", "압축 방식"),
   (0x0106, "PhotometricInterpretation", "픽셀 구성 방식"),
   (0x010F, "Make", "제조사 정보"),
   (0x0110, "Model", "카메라 모델 정보"),
   (0x0112, "Orientation", "이미지 방향"),
   (0x011A, "XResolution", "수평 해상도"),
   (0x011B, "YResolution", "수직 해상도"),
   (0x0131, "Software", "사용된 소프트웨어"),
   (0x0132, "DateTime", "파일 변경 날짜/시간"),
   (0x8769, "ExifOffset", "EXIF IFD 오프셋"),
   (0x8825, "GPSInfo", "GPS IFD 오프셋")]

/-- Lower-case hex rendering, as `Number.prototype.toString(16)`. -/
def hexLower (n : Nat) : String := String.mk (Nat.toDigits 16 n)

/-- Upper-case hex rendering, as `toString(16).toUpperCase()`. -/
def hexUpper (n : Nat) : String :=
  String.mk ((Nat.toDigits 16 n).map Char.toUpper)

/-- The tag loop of one IFD: `count` 12-byte entries starting at `off`, each
contributing one metadata item named from the tag table; a tag-id read past
the buffer throws in the source. -/
def tiffTagItems (bytes : Bytes) (little : Bool) :
    Nat → Nat → Except Unit (List (String × String))
  | 0, _ => .ok []
  | count + 1, off =>
    match readU16AtOpt bytes little off with
    | none => .error ()
    | some tagId =>
      let item :=
        match tiffTags.lookup tagId with
        | some info => info
        | none => ("Unknown Tag (0x" ++ hexLower tagId ++ ")", "")
      (tiffTagItems bytes little count (off + 12)).map (item :: ·)

/-- The IFD chain loop (`while (currentIfdOffset !== 0)`), one fuel unit per
iteration; `n` is the running IFD count used in the item text.  Returns the
metadata items and errors accumulated by the loop. -/
def tiffIFDLoop (bytes : Bytes) (little : Bool) :
    Nat → Nat → Nat → Option (Except Unit (List (String × String) × List String))
  | 0, _, _ => none
  | fuel + 1, currentIfdOffset, n =>
    if currentIfdOffset = 0 then some (.ok ([], []))
    else
      let ifdItem := ("IFD #" ++ toString n,
        "Directory at offset " ++ toString currentIfdOffset)
      if currentIfdOffset + 2 > bytes.length then
        some (.ok ([ifdItem],
          ["IFD #" ++ toString n ++ " 오프셋이 파일 크기를 벗어납니다."]))
      else
        let entryCount := readU16At bytes little currentIfdOffset
        match tiffTagItems bytes little entryCount (currentIfdOffset + 2) with
        | .error _ => some (.error ())
        | .ok tagItems =>
          match readU32AtOpt bytes little (currentIfdOffset + 2 + 12 * entryCount) with
          | none => some (.error ())
          | some next =>
            (tiffIFDLoop bytes little fuel next (n + 1)).map
              (·.map fun r => (ifdItem :: tagItems ++ r.1, r.2))

def tiffTooSmallMsg : String :=
  "파일이 너무 작아 유효한 TIFF 헤더를 포함할 수 없습니다."

def tiffBadByteOrderMsg : String :=
  "유효한 TIFF 바이트 순서 마커('II' 또는 'MM')를 찾을 수 없습니다."

def tiffBadMagicMsg (magic : Nat) : String :=
  "유효하지 않은 TIFF Magic Number(" ++ toString magic ++ ") 입니다. (기대값: 42)"

/-- `sfMetaScannerTiff.scan` with explicit fuel for the IFD loop: `none`
means the loop is still running after `fuel` iterations.  The too-small
branch resolves `skipped: true` together with a pushed error. -/
def tiffScan (bytes : Bytes) (fuel : Nat) : Option (Except Unit ScanResult) :=
  if bytes.length < 8 then
    some (.ok { errors := [tiffTooSmallMsg], metadata := [], skipped := true })
  else
    let byteOrderMarker := readU16BE bytes 0
    let isLittleEndian := byteOrderMarker = 0x4949
    let isBigEndian := byteOrderMarker = 0x4D4D
    if ¬ isLittleEndian ∧ ¬ isBigEndian then
      some (.ok { errors := [tiffBadByteOrderMsg], metadata := [], skipped := false })
    else
      let magic := readU16At bytes isLittleEndian 2
      if magic ≠ 42 then
        some (.ok { errors := [tiffBadMagicMsg magic], metadata := [], skipped := false })
      else
        let firstIfdOffset := readU32At bytes isLittleEndian 4
        (tiffIFDLoop bytes isLittleEndian fuel firstIfdOffset 1).map
          (·.map fun r => { errors := r.2, metadata := r.1, skipped := false })

/-! ### JPEG marker scanner (`sfMetaScannerJpeg`) and the controller's
metadata verdict (`sfImageSanitizer.analysisSteps`)

Metadata items are embedded with the fields the controller's verdict logic
reads: `key`, `offset` and `isMissing`.  The display-only fields (`value`
marker names, `markerHex`, segment `details` text, `rawData` hex dumps) never
influence `foundKeys`, the missing-marker cross-check or the safety verdict
and are not modelled.  The final `.sort` of `_scanAllMarkers` permutes the
item list with an order-inconsistent comparator; the controller folds over
all items, and the verdict facts proved below (membership, `isSafe`) are
permutation-invariant, so the embedding keeps the append order (missing
items last, which is also where that comparator sends them). -/

structure JItem where
  key : String
  offset : Option Nat := none
  isMissing : Bool := false
deriving Repr, DecidableEq

/-- `sfMetaScannerJpeg.JPEG_MARKERS`, code to abbreviation. -/
def jpegMarkers : List (Nat × String) :=
  [(0xFFC0, "SOF0"), (0xFFC1, "SOF1"), (0xFFC2, "SOF2"), (0xFFC3, "SOF3"),
   (0xFFC4, "DHT"), (0xFFC5, "SOF5"), (0xFFC6, "SOF6"), (0xFFC7, "SOF7"),
   (0xFFC8, "JPG"), (0xFFC9, "SOF9"), (0xFFCA, "SOF10"), (0xFFCB, "SOF11"),
   (0xFFCC, "DAC"), (0xFFCD, "SOF13"), (0xFFCE, "SOF14"), (0xFFCF, "SOF15"),
   (0xFFD0, "RST0"), (0xFFD1, "RST1"), (0xFFD2, "RST2"), (0xFFD3, "RST3"),
   (0xFFD4, "RST4"), (0xFFD5, "RST5"), (0xFFD6, "RST6"), (0xFFD7, "RST7"),
   (0xFFD8, "SOI"), (0xFFD9, "EOI"), (0xFFDA, "SOS"), (0xFFDB, "DQT"),
   (0xFFDC, "DNL"), (0xFFDD, "DRI"), (0xFFDE, "DHP"), (0xFFDF, "EXP"),
   (0xFFE0, "APP0"), (0xFFE1, "APP1"), (0xFFE2, "APP2"), (0xFFE3, "APP3"),
   (0xFFE4, "APP4"), (0xFFE5, "APP5"), (0xFFE6, "APP6"), (0xFFE7, "APP7"),
   (0xFFE8, "APP8"), (0xFFE9, "APP9"), (0xFFEA, "APP10"), (0xFFEB, "APP11"),
   (0xFFEC, "APP12"), (0xFFED, "APP13"), (0xFFEE, "APP14"), (0xFFEF, "APP15"),
   (0xFFF0, "JPG0"), (0xFFFD, "JPG13"), (0xFFFE, "COM"), (0xFF01, "TEM")]

def standaloneMarkers : List Nat :=
  [0xFFD8, 0xFFD9, 0xFF01, 0xFFD0, 0xFFD1, 0xFFD2, 0xFFD3, 0xFFD4, 0xFFD5,
   0xFFD6, 0xFFD7]

def criticalMarkers : List String := ["SOI", "SOF0", "SOS", "EOI"]

def commonMarkers : List String := ["DQT", "DHT", "APP0"]

structure SegScan where
  metadata : List JItem
  foundKeys : List String
  endOfScanIndex : Nat
deriving Repr, DecidableEq

/-- The shared `if (newMetaItem)` block of `sfMetaScannerJpeg._scanSegment`,
run for every marker that builds a metadata item — a known marker (whose
abbreviation `key` also entered `foundKeys`, `addKey = true`) or a reserved
code in `FF02..FFBF` (item only, `addKey = false`).  A standalone marker
records the item over the walk resumed at `i + 2`; otherwise the marker is
length-prefixed: when the 2-byte length field would not fit
(`i + 4 > length`) the item is recorded and the walk breaks at `i`; `SOS`
(`FFDA`) records the item and ends the pass with `endOfScanIndex` just past
its segment; any other marker records the item over the walk resumed at
`i + segmentLength + 2`.  The two possible resumptions of the walk are
passed in as `next2` (from `i + 2`) and `nextSeg` (from
`i + segmentLength + 2`); both are evaluated eagerly, which is harmless
because the walk is pure and total, and the unused one is discarded. -/
def scanSegmentMarkerItem (bytes : Bytes) (markerCode i : Nat) (key : String)
    (addKey : Bool) (next2 nextSeg : Option SegScan) : Option SegScan :=
  let keysOf : List String → List String :=
    fun ks => if addKey then key :: ks else ks
  if standaloneMarkers.contains markerCode then
    next2.map fun out =>
      { out with
        metadata := ⟨key, some i, false⟩ :: out.metadata
        foundKeys := keysOf out.foundKeys }
  else if i + 4 > bytes.length then
    some ⟨[⟨key, some i, false⟩], keysOf [], i⟩
  else
    let segmentLength := readU16BE bytes (i + 2)
    if markerCode = 0xFFDA then
      some ⟨[⟨key, some i, false⟩], keysOf [], i + segmentLength + 2⟩
    else
      nextSeg.map fun out =>
        { out with
          metadata := ⟨key, some i, false⟩ :: out.metadata
          foundKeys := keysOf out.foundKeys }

/-- `sfMetaScannerJpeg._scanSegment`: walk `FF xx` markers from `i`.  A
second byte in `{00, FF}` is skipped.  A known marker builds an item and
enters `foundKeys`; a reserved code in `FF02..FFBF` builds an item without
entering `foundKeys`; both then run the shared `scanSegmentMarkerItem`
block above (reserved codes are never standalone and never `FFDA`, so they
take its length-prefixed path, as in the source).  Unknown codes outside
`FF02..FFBF` advance by 2 silently.  The `segmentLength` read backing
`nextSeg`'s start offset is only consulted on the path where the source
performs it (`i + 4 ≤ length`, non-`SOS`), where it is in bounds.  Every
iteration advances `i` by at least 1 while `i + 1 < length`, so the
`bytes.length + 1` fuel supplied by the callers is never exhausted
(`scanSegment_total` below). -/
def scanSegment (bytes : Bytes) : Nat → Nat → Option SegScan
  | 0, _ => none
  | fuel + 1, i =>
    if i + 1 < bytes.length then
      if byteAt bytes i ≠ 0xFF then scanSegment bytes fuel (i + 1)
      else
        let m2 := byteAt bytes (i + 1)
        if m2 = 0x00 ∨ m2 = 0xFF then scanSegment bytes fuel (i + 1)
        else
          let markerCode := readU16BE bytes i
          match jpegMarkers.lookup markerCode with
          | some abbr =>
            scanSegmentMarkerItem bytes markerCode i abbr true
              (scanSegment bytes fuel (i + 2))
              (scanSegment bytes fuel (i + readU16BE bytes (i + 2) + 2))
          | none =>
            if 0xFF02 ≤ markerCode ∧ markerCode ≤ 0xFFBF then
              scanSegmentMarkerItem bytes markerCode i
                ("RES(0x" ++ hexUpper markerCode ++ ")") false
                (scanSegment bytes fuel (i + 2))
                (scanSegment bytes fuel (i + readU16BE bytes (i + 2) + 2))
            else scanSegment bytes fuel (i + 2)
    else some ⟨[], [], i⟩

/-- Relative index of the first adjacent `FF D9` pair. -/
def findFFD9 : Bytes → Option Nat
  | a :: b :: rest =>
    if a = 0xFF ∧ b = 0xD9 then some 0 else (findFFD9 (b :: rest)).map (· + 1)
  | _ => none

/-- The raw EOI search of `_scanAllMarkers`, from index `start`. -/
def findEOIFrom (bytes : Bytes) (start : Nat) : Option Nat :=
  (findFFD9 (bytes.drop start)).map (· + start)

/-- The missing-marker items appended by `_scanAllMarkers`: one
`isMissing: true` item per essential marker (critical then common, the Set
spread order) absent from the combined found-set. -/
def missingItems (keys : List String) : List JItem :=
  ((criticalMarkers ++ commonMarkers).filter (fun k => !(keys.contains k))).map
    (fun k => ⟨k, none, true⟩)

/-- The two passes of `sfMetaScannerJpeg._scanAllMarkers` before the
missing-marker cross-check: the main-image pass from 0, the raw EOI search
from its end-of-scan index, and (when bytes remain past the EOI) the trailing
pass, with the `TRAILING_DATA` and conditional `INFO` items in between.
`.error` is the out-of-range `getUint16(trailingDataIndex)` probe the source
performs when exactly one byte follows the EOI (a thrown `RangeError`). -/
def scanCombined (bytes : Bytes) :
    Option (Except Unit (List JItem × List String)) :=
  match scanSegment bytes (bytes.length + 1) 0 with
  | none => none
  | some main =>
    match findEOIFrom bytes main.endOfScanIndex with
    | none => some (.ok (main.metadata, main.foundKeys))
    | some firstEoiIndex =>
      let eoiItem : JItem := ⟨"EOI", some firstEoiIndex, false⟩
      let keys := main.foundKeys ++ ["EOI"]
      let trailingDataIndex := firstEoiIndex + 2
      if trailingDataIndex < bytes.length then
        match readU16BEOpt bytes trailingDataIndex with
        | none => some (.error ())
        | some probe =>
          let infoItems : List JItem :=
            if probe = 0xFFED then [⟨"INFO", none, false⟩] else []
          match scanSegment bytes (bytes.length + 1) trailingDataIndex with
          | none => none
          | some trail =>
            some (.ok
              (main.metadata ++ eoiItem ::
                  (⟨"TRAILING_DATA", some trailingDataIndex, false⟩ ::
                    infoItems) ++ trail.metadata,
               keys ++ trail.foundKeys))
      else some (.ok (main.metadata ++ [eoiItem], keys))

/-- `sfMetaScannerJpeg._scanAllMarkers`: the combined passes followed by the
missing-marker cross-check over the critical and common sets.  The second
component is the combined found-set. -/
def scanAllMarkers (bytes : Bytes) :
    Option (Except Unit (List JItem × List String)) :=
  (scanCombined bytes).map (·.map fun r => (r.1 ++ missingItems r.2, r.2))

/-- The controller's per-file analysis context (`sfImageSanitizer`,
`analysisContext`): the fields that the metadata step writes. -/
structure AnalysisContext where
  isSafe : Bool
  hasWarnings : Bool
  reasons : List String
deriving Repr, DecidableEq

def jpegMissingMarkerReason (key : String) : String :=
  key ++ " 마커가 누락되어 유효하지 않은 파일입니다."

/-- One iteration of the controller's `result.metadata.forEach`: an
`isMissing` item whose key is a critical marker is fatal (clears `isSafe`,
pushes a reason); any other item (missing-common, or a present marker) only
produces log output. -/
def processMetadataItem (ctx : AnalysisContext) (item : JItem) :
    AnalysisContext :=
  if item.isMissing then
    if criticalMarkers.contains item.key then
      { ctx with
        isSafe := false
        reasons := ctx.reasons ++ [jpegMissingMarkerReason item.key] }
    else ctx
  else ctx

/-- The scan-result object consumed by the controller's metadata step for a
scanned (non-skipped) format. -/
structure MetaScanPayload where
  errors : List String
  warnings : List String
  metadata : List JItem
  skipped : Bool
deriving Repr, DecidableEq

/-- The `processResult` of the controller's metadata-analysis step: skipped
results only log; otherwise every metadata item is folded through
`processMetadataItem`, then non-empty warnings mark `hasWarnings` and
non-empty errors clear `isSafe`, each appending its messages to the
reasons. -/
def processMetadataResult (ctx : AnalysisContext) (r : MetaScanPayload) :
    AnalysisContext :=
  if r.skipped then ctx
  else
    let ctx1 := r.metadata.foldl processMetadataItem ctx
    let ctx2 :=
      if r.warnings ≠ [] then
        { ctx1 with
          hasWarnings := true
          reasons := ctx1.reasons ++ r.warnings }
      else ctx1
    if r.errors ≠ [] then
      { ctx2 with isSafe := false, reasons := ctx2.reasons ++ r.errors }
    else ctx2

/-! ### Fixtures used by the claims -/

/-- A minimal APNG: the PNG signature followed by a chunk whose type at
offset 12 is `acTL` (length field 0). -/
def apngSample : Bytes := pngSignature ++ [0, 0, 0, 0] ++ acTLBytes

/-- A minimal plain (non-animated) PNG for the chunk walk: the PNG signature
followed by a chunk whose type is `IDAT`. -/
def plainPngSample : Bytes := pngSignature ++ [0, 0, 0, 0] ++ idatBytes

/-- A `GIF89a` header with no trailing `0x3B` trailer byte anywhere. -/
def gifNoTrailer : Bytes := [0x47, 0x49, 0x46, 0x38, 0x39, 0x61]

/-- A WebP container whose first sub-chunk `ICCP` declares the odd payload
size 7 (so one padding byte precedes the next chunk) followed by a `VP8 `
chunk at offset 28. -/
def webpFixture : Bytes :=
  [0x52, 0x49, 0x46, 0x46] ++ [0, 0, 0, 0] ++ [0x57, 0x45, 0x42, 0x50] ++
  [0x49, 0x43, 0x43, 0x50] ++ [7, 0, 0, 0] ++ [9, 9, 9, 9, 9, 9, 9] ++ [0] ++
  [0x56, 0x50, 0x38, 0x20] ++ [0, 0, 0, 0] ++ [0]

/-- A TIFF (`II`, magic 42) whose first IFD at offset 8 has zero entries and
whose next-IFD field points back to offset 8: a cycle in the IFD chain. -/
def tiffCyclic : Bytes :=
  [0x49, 0x49, 0x2A, 0x00, 8, 0, 0, 0, 0, 0, 8, 0, 0, 0]

/-- The JPEG marker-scan output on the empty buffer: no marker is found, so
all seven essential markers are reported missing. -/
def jpegEmptyScanItems : List JItem :=
  [⟨"SOI", none, true⟩, ⟨"SOF0", none, true⟩, ⟨"SOS", none, true⟩,
   ⟨"EOI", none, true⟩, ⟨"DQT", none, true⟩, ⟨"DHT", none, true⟩,
   ⟨"APP0", none, true⟩]

/-- The composition the extension-consistency claims are about: detect the
format of the buffer under the given extension hint with `getFormat`, then
judge the extension against the detected format with `isExtensionValid`
(a missing detection is the `null` case, judged invalid). -/
def extensionVerdict (bytes : Bytes) (extension : String) : Bool :=
  isExtensionValid ((getFormat bytes extension).map Prod.fst) extension

/-- The chunk sequence described by the specification's APNG rule: walk
chunks from offset 8, each chunk read as length(4,BE) + type(4) + data + CRC
(12-byte overhead), collecting the 4-byte chunk types while at least a chunk
header (8 bytes) remains; the walk ends when it runs off the buffer.  This
definition follows the specification's words, to be compared against the
source's `_isAPNG`; it uses the same fuel convention (each step advances by
at least 12, so `bytes.length + 1` fuel is never exhausted). -/
def pngChunkTypesWalk (bytes : Bytes) : Nat → Nat → List Bytes
  | 0, _ => []
  | fuel + 1, i =>
    if i + 8 ≤ bytes.length then
      sliceBytes bytes (i + 4) (i + 8) ::
        pngChunkTypesWalk bytes fuel (i + 12 + readU32BE bytes i)
    else []

/-- The chunk-type sequence of a PNG buffer, from offset 8. -/
def pngChunkTypes (bytes : Bytes) : List Bytes :=
  pngChunkTypesWalk bytes (bytes.length + 1) 8

/-- The specification's APNG criterion over the chunk-type sequence: among
the chunk types, the first one that is `acTL` or `IDAT` must be `acTL`; if
`IDAT` comes first, or the walk runs off the buffer without meeting either,
the buffer is not an APNG. -/
def specIsAPNG (bytes : Bytes) : Bool :=
  match (pngChunkTypes bytes).find? (fun t => t == acTLBytes || t == idatBytes) with
  | some t => t == acTLBytes
  | none => false

/-! ## Claims

Each claim about the program is settled by one theorem below; a theorem with
hypotheses is accompanied by a closed witness instantiating it, and a claim
that fails on the code by a closed counterexample. -/

/-- C4: every verdict object built by `sfFileFormatAnalyzer.analyze` —
including the short-circuit verdict produced when no format is detected from
the first chunk, whose object literal omits the `isExtensionValid` field
(reading it yields `undefined`, which is falsy: `Option.getD false` below) —
satisfies `isValid = isExtensionValid && structuralVerification.isValid`. -/
theorem c4_verdict_invariant (firstChunk fullFileBytes : Bytes)
    (extension : String) :
    (analyze firstChunk fullFileBytes extension).isValid =
      ((analyze firstChunk fullFileBytes extension).isExtensionValid.getD false
        && (analyze firstChunk fullFileBytes
              extension).structuralVerification.isValid) := by
  unfold analyze
  cases getFormat firstChunk extension with
  | none => rfl
  | some r => obtain ⟨f, m⟩ := r; rfl

/-- C10: `getDimensions` returns `null` for every format string outside the
six with a dedicated parser — in particular for webp, svg, tiff, ico, avif
and heic — and the surrounding `try`/`catch` converts any parser exception
(the `.error` outcomes of the embedded parsers, i.e. the out-of-range
`DataView` reads on truncated buffers) into `null`, so the embedded
`getDimensions` is a total function that never throws. -/
theorem c10_dimensions_unsupported (format : String) (bytes : Bytes)
    (h : format ∉
      (["png", "apng", "jpeg", "gif", "bmp", "jpeg2000"] : List String)) :
    getDimensions format bytes = none := by
  simp only [List.mem_cons, List.not_mem_nil, or_false, not_or] at h
  obtain ⟨h1, h2, h3, h4, h5, h6⟩ := h
  unfold getDimensions
  split
  all_goals simp_all

/-- C10 witness: a concrete unsupported format (webp) on a concrete buffer. -/
theorem c10_witness :
    ("webp" ∉ (["png", "apng", "jpeg", "gif", "bmp", "jpeg2000"] : List String))
      ∧ getDimensions "webp" [0x52, 0x49, 0x46, 0x46] = none :=
  ⟨by decide,
   c10_dimensions_unsupported "webp" [0x52, 0x49, 0x46, 0x46] (by decide)⟩

/-- C2 counterexample: the claim extends terminal-marker verification to all
eleven formats, but `verifyStructure` checks a terminator only for PNG/APNG
and JPEG.  A GIF header whose `0x3B` trailer has been deleted is detected as
gif yet reported structurally valid with no reason. -/
theorem c2_counterexample :
    (getFormat gifNoTrailer "gif").map Prod.fst = some "gif" ∧
    verifyStructure "gif" gifNoTrailer =
      { isValid := true, reason := none, warning := none } := by decide

/-- C2 (amended): only PNG/APNG and JPEG are structurally verified.  Deleting
PNG's terminal IEND chunk (the 4 bytes at `length - 8` no longer read `IEND`)
or JPEG's EOI marker (no `FF D9` pair anywhere) makes `verifyStructure`
return `isValid = false` with the reason naming the missing terminator
(IEND 청크 / EOI 마커); every other format string — including the other nine
supported formats — yields the unconditional `isValid = true` default, so
corrupting their terminators is not detected. -/
theorem c2_terminal_verification (bytes : Bytes) :
    (checkBytes bytes iendBytes (bytes.length - 8) = false →
      verifyStructure "png" bytes =
        { isValid := false, reason := some pngIendMissingReason } ∧
      verifyStructure "apng" bytes =
        { isValid := false, reason := some pngIendMissingReason }) ∧
    (hasEOIMarker bytes = false →
      verifyStructure "jpeg" bytes =
        { isValid := false, reason := some jpegEoiMissingReason }) ∧
    (∀ format, format ∉ (["png", "apng", "jpeg"] : List String) →
      verifyStructure format bytes = { isValid := true, reason := none }) := by
  refine ⟨fun h => ?_, fun h => ?_, fun format hf => ?_⟩
  · constructor <;> simp [verifyStructure, verifyPNGStructure, h]
  · simp [verifyStructure, verifyJPEGStructure, h]
  · simp only [List.mem_cons, List.not_mem_nil, or_false, not_or] at hf
    obtain ⟨h1, h2, h3⟩ := hf
    unfold verifyStructure
    split <;> simp_all

/-- C2 witness: a PNG signature with no IEND at the end, a JPEG SOI with no
EOI anywhere, and the gif default, each instantiating the amended claim. -/
theorem c2_witness :
    verifyStructure "png" pngSignature =
      { isValid := false, reason := some pngIendMissingReason } ∧
    verifyStructure "jpeg" [0xFF, 0xD8] =
      { isValid := false, reason := some jpegEoiMissingReason } ∧
    verifyStructure "gif" gifNoTrailer = { isValid := true, reason := none } :=
  ⟨((c2_terminal_verification pngSignature).1 (by decide)).1,
   (c2_terminal_verification [0xFF, 0xD8]).2.1 (by decide),
   (c2_terminal_verification gifNoTrailer).2.2 "gif" (by decide)⟩

/-- C3 counterexample: the ICO scanner's too-small branch resolves
`skipped: true` together with a pushed error, so `skipped = true` does not
imply an empty errors list. -/
theorem c3_counterexample :
    (icoScan [0x00, 0x00, 0x01]).skipped = true ∧
    (icoScan [0x00, 0x00, 0x01]).errors ≠ [] := by decide

/-- C3 (amended): a skipped ScanResult always has empty metadata, but not
always empty errors: the too-small branches of the TIFF and ICO scanners
(embedded here; the BMP scanner of the source has the same pattern) return
`skipped = true` together with exactly the one too-small error, and only
there; the dispatcher's unsupported-format result is the case with
`skipped = true` and empty errors and metadata. -/
theorem c3_skipped_semantics :
    (∀ bytes : Bytes, (icoScan bytes).skipped = true →
      (icoScan bytes).metadata = [] ∧
      (icoScan bytes).errors = [icoTooSmallMsg] ∧ bytes.length < 6) ∧
    (∀ (bytes : Bytes) (fuel : Nat) (r : ScanResult),
      tiffScan bytes fuel = some (.ok r) → r.skipped = true →
      r.metadata = [] ∧ r.errors = [tiffTooSmallMsg] ∧ bytes.length < 8) ∧
    (∀ format, (metadataUnsupportedResult format).skipped = true ∧
      (metadataUnsupportedResult format).errors = [] ∧
      (metadataUnsupportedResult format).metadata = []) := by
  refine ⟨fun bytes hskip => ?_, fun bytes fuel r hscan hskip => ?_,
    fun format => ⟨rfl, rfl, rfl⟩⟩
  · by_cases hlen : bytes.length < 6
    · simp [icoScan, hlen]
    · exfalso
      by_cases hsig : ¬ readU16LE bytes 0 = 0 ∨ ¬ readU16LE bytes 2 = 1 <;>
        simp [icoScan, hlen, hsig] at hskip
  · by_cases hlen : bytes.length < 8
    · simp only [tiffScan, hlen, if_true, Option.some.injEq,
        Except.ok.injEq] at hscan
      subst hscan
      exact ⟨rfl, rfl, hlen⟩
    · exfalso
      simp only [tiffScan, hlen, if_false] at hscan
      split at hscan
      · simp only [Option.some.injEq, Except.ok.injEq] at hscan
        subst hscan
        simp at hskip
      · split at hscan
        · simp only [Option.some.injEq, Except.ok.injEq] at hscan
          subst hscan
          simp at hskip
        · rcases htl : tiffIFDLoop bytes (readU16BE bytes 0 = 0x4949) fuel
              (readU32At bytes (readU16BE bytes 0 = 0x4949) 4) 1 with _ | e
          · rw [htl] at hscan; simp at hscan
          · rw [htl] at hscan
            cases e with
            | error u => simp [Except.map] at hscan
            | ok pair =>
              simp [Except.map] at hscan
              subst hscan
              simp at hskip

/-- C3 witness: instantiating the amended claim at a 3-byte ICO input, a
3-byte TIFF input, and the unsupported-format dispatcher result. -/
theorem c3_witness :
    ((icoScan [0x00, 0x00]).metadata = [] ∧
      (icoScan [0x00, 0x00]).errors = [icoTooSmallMsg] ∧
      ([0x00, 0x00] : Bytes).length < 6) ∧
    ({ errors := [tiffTooSmallMsg], metadata := [], skipped := true
       : ScanResult }.metadata = [] ∧
      ({ errors := [tiffTooSmallMsg], metadata := [], skipped := true
         : ScanResult }.errors = [tiffTooSmallMsg]) ∧
      ([0x4D] : Bytes).length < 8) ∧
    ((metadataUnsupportedResult (some "ico")).skipped = true ∧
      (metadataUnsupportedResult (some "ico")).errors = [] ∧
      (metadataUnsupportedResult (some "ico")).metadata = []) :=
  ⟨c3_skipped_semantics.1 [0x00, 0x00] (by decide),
   c3_skipped_semantics.2.1 [0x4D] 3
     { errors := [tiffTooSmallMsg], metadata := [], skipped := true }
     (by decide) (by decide),
   c3_skipped_semantics.2.2 (some "ico")⟩

/-- C7: the TIFF scanner's IFD-chain loop stops only on a zero next-IFD
offset (or an out-of-bounds one) and carries no visited-offset or
forward-progress guard, so it is not total: on the concrete TIFF whose first
IFD's next-IFD field points back to itself, the loop never terminates — for
every fuel bound the embedded scan is still running. -/
theorem c7_tiff_ifd_nontermination :
    ∃ bytes : Bytes, ∀ fuel : Nat, tiffScan bytes fuel = none := by
  refine ⟨tiffCyclic, fun fuel => ?_⟩
  have key : ∀ f n, tiffIFDLoop tiffCyclic true f 8 n = none := by
    intro f
    induction f with
    | zero => intro n; rfl
    | succ f ih =>
      intro n
      have step : tiffIFDLoop tiffCyclic true (f + 1) 8 n =
          (tiffIFDLoop tiffCyclic true f 8 (n + 1)).map
            (Except.map fun r =>
              (("IFD #" ++ toString n,
                 "Directory at offset " ++ toString 8) :: r.1, r.2)) := rfl
      rw [step, ih]
      rfl
  have base : tiffScan tiffCyclic fuel =
      (tiffIFDLoop tiffCyclic true fuel 8 1).map
        (Except.map fun r =>
          { errors := r.2, metadata := r.1, skipped := false }) := rfl
  rw [base, key]
  rfl

/-- Fuel does not matter for the APNG chunk walk once it exceeds the
remaining length: certifies that the fuel convention of the embedding does
not alter the loop's value. -/
theorem isAPNGWalk_fuel_irrelevant (bytes : Bytes) :
    ∀ f g i, bytes.length - i < f → bytes.length - i < g →
      isAPNGWalk bytes f i = isAPNGWalk bytes g i := by
  intro f
  induction f with
  | zero => intro g i hf _; omega
  | succ f ih =>
    intro g i hf hg
    cases g with
    | zero => omega
    | succ g =>
      by_cases hi : i < bytes.length
      · by_cases h8 : i + 8 > bytes.length
        · simp [isAPNGWalk, hi, h8]
        · simp only [isAPNGWalk, if_pos hi, if_neg h8]
          by_cases hact : sliceBytes bytes (i + 4) (i + 8) = acTLBytes
          · simp [hact]
          · by_cases hidat : sliceBytes bytes (i + 4) (i + 8) = idatBytes
            · simp [hact, hidat]
            · have hguard : ¬ (i + 12 + readU32BE bytes i ≤ i) := by omega
              simp only [if_neg hact, if_neg hidat, if_neg hguard]
              exact ih g (i + 12 + readU32BE bytes i) (by omega) (by omega)
      · simp [isAPNGWalk, hi]

/-- The source's `_isAPNG` walk computes exactly the specification's
first-of-`acTL`/`IDAT` criterion over the collected chunk-type sequence, at
every fuel and start offset. -/
theorem isAPNGWalk_eq_find (bytes : Bytes) :
    ∀ fuel i, isAPNGWalk bytes fuel i =
      (match (pngChunkTypesWalk bytes fuel i).find?
          (fun t => t == acTLBytes || t == idatBytes) with
       | some t => t == acTLBytes
       | none => false) := by
  intro fuel
  induction fuel with
  | zero => intro i; rfl
  | succ fuel ih =>
    intro i
    by_cases h8 : i + 8 ≤ bytes.length
    · have hi : i < bytes.length := by omega
      have h8' : ¬ (i + 8 > bytes.length) := by omega
      simp only [isAPNGWalk, pngChunkTypesWalk, if_pos hi, if_neg h8',
        if_pos h8]
      by_cases hact : sliceBytes bytes (i + 4) (i + 8) = acTLBytes
      · simp [hact, List.find?]
      · by_cases hidat : sliceBytes bytes (i + 4) (i + 8) = idatBytes
        · simp [hact, hidat, List.find?, acTLBytes, idatBytes]
        · have hguard : ¬ (i + 12 + readU32BE bytes i ≤ i) := by omega
          simp only [if_neg hact, if_neg hidat, if_neg hguard, List.find?]
          have hpred : (sliceBytes bytes (i + 4) (i + 8) == acTLBytes ||
              sliceBytes bytes (i + 4) (i + 8) == idatBytes) = false := by
            simp [hact, hidat]
          rw [hpred]
          exact ih (i + 12 + readU32BE bytes i)
    · by_cases hi : i < bytes.length
      · have h8' : i + 8 > bytes.length := by omega
        simp [isAPNGWalk, pngChunkTypesWalk, hi, h8', h8]
      · simp [isAPNGWalk, pngChunkTypesWalk, hi, h8]

/-- C6: the APNG matcher accepts a byte buffer iff the buffer passes the
8-byte PNG signature check and the chunk walk from offset 8 (each step
advancing by 12 plus the chunk's 4-byte big-endian length) meets an `acTL`
chunk type before meeting any `IDAT` chunk type; when `IDAT` comes first, or
the walk runs off the buffer, the buffer is not classified as apng
(`specIsAPNG` is the specification-side walk; the source side is
`checkerApng`). -/
theorem c6_apng_matcher_characterization (bytes : Bytes) :
    (checkerApng bytes).isSome =
      (checkBytes bytes pngSignature 0 && specIsAPNG bytes) := by
  have hwalk := isAPNGWalk_eq_find bytes (bytes.length + 1) 8
  by_cases hsig : checkBytes bytes pngSignature 0
  · simp only [checkerApng, checkerPng, if_pos hsig, Option.isSome_some,
      Bool.true_and, isAPNG, specIsAPNG, pngChunkTypes]
    rw [hwalk]
    cases h : (pngChunkTypesWalk bytes (bytes.length + 1) 8).find?
        (fun t => t == acTLBytes || t == idatBytes) with
    | none => simp [hsig]
    | some t => cases ht : (t == acTLBytes) <;> simp [hsig, ht]
  · simp [checkerApng, checkerPng, hsig]

/-- C8: in the WebP scanner's RIFF sub-chunk walk, a chunk at offset `i`
declaring payload size `N` advances the cursor to `i + 8 + N + 1` when `N`
is odd (one padding byte) and to `i + 8 + N` when `N` is even, and the walk
then records the next chunk at exactly that cursor; consequently, on the
fixture whose odd-sized (7-byte) `ICCP` chunk at offset 12 is followed by a
`VP8 ` chunk, both chunks are recorded at their correct offsets 12 and 28. -/
theorem c8_webp_odd_padding :
    (∀ (bytes : Bytes) (fuel i : Nat), i + 8 < bytes.length →
      ((readU32LE bytes (i + 4)) % 2 = 1 →
        webpNextChunkPos i (readU32LE bytes (i + 4)) =
          i + 8 + readU32LE bytes (i + 4) + 1) ∧
      ((readU32LE bytes (i + 4)) % 2 = 0 →
        webpNextChunkPos i (readU32LE bytes (i + 4)) =
          i + 8 + readU32LE bytes (i + 4)) ∧
      (webpNextChunkPos i (readU32LE bytes (i + 4)) ≤ bytes.length →
        webpWalk bytes (fuel + 1) i =
          ⟨(i, sliceBytes bytes i (i + 4)) ::
             (webpWalk bytes fuel
               (webpNextChunkPos i (readU32LE bytes (i + 4)))).chunks,
           (webpWalk bytes fuel
             (webpNextChunkPos i (readU32LE bytes (i + 4)))).aborted⟩)) ∧
    webpScan webpFixture =
      ⟨true, [(12, [0x49, 0x43, 0x43, 0x50]), (28, [0x56, 0x50, 0x38, 0x20])],
       false⟩ := by
  constructor
  · intro bytes fuel i h
    refine ⟨fun hodd => ?_, fun heven => ?_, fun hle => ?_⟩
    · simp [webpNextChunkPos, hodd]
    · simp [webpNextChunkPos, heven]
    · have hgti : i < webpNextChunkPos i (readU32LE bytes (i + 4)) := by
        unfold webpNextChunkPos; omega
      have hguard : ¬ (webpNextChunkPos i (readU32LE bytes (i + 4)) ≤ i ∨
          webpNextChunkPos i (readU32LE bytes (i + 4)) > bytes.length) := by
        omega
      simp only [webpWalk, if_pos h, if_neg hguard]
  · decide

/-- C8 witness: the step applied at the fixture's `ICCP` chunk (offset 12,
odd size 7): the next chunk is visited at offset
`webpNextChunkPos 12 7 = 28`. -/
theorem c8_witness :
    (12 + 8 < webpFixture.length) ∧
    webpWalk webpFixture 38 12 =
      ⟨(12, sliceBytes webpFixture 12 16) ::
         (webpWalk webpFixture 37
           (webpNextChunkPos 12 (readU32LE webpFixture 16))).chunks,
       (webpWalk webpFixture 37
         (webpNextChunkPos 12 (readU32LE webpFixture 16))).aborted⟩ :=
  ⟨by decide,
   (c8_webp_odd_padding.1 webpFixture 37 12 (by decide)).2.2 (by decide)⟩

/-- A matcher list whose head matches short-circuits `runCheckers`. -/
theorem runCheckers_cons_found (bytes : Bytes) (f : String) (rest : List String)
    (checker : Bytes → CheckerResult) (m : Option Bytes)
    (hl : formatCheckers.lookup f = some checker)
    (hc : checker bytes = some m) :
    runCheckers bytes (f :: rest) = some (f, m) := by
  simp [runCheckers, hl, hc]

/-- A matcher list whose head does not match falls through in
`runCheckers`. -/
theorem runCheckers_cons_skip (bytes : Bytes) (f : String) (rest : List String)
    (checker : Bytes → CheckerResult)
    (hl : formatCheckers.lookup f = some checker)
    (hc : checker bytes = none) :
    runCheckers bytes (f :: rest) = runCheckers bytes rest := by
  simp [runCheckers, hl, hc]

/-- `getFormat` returns the first primary-pass match when there is one. -/
theorem getFormat_of_primary_found (bytes : Bytes) (extension : String)
    (r : String × Option Bytes)
    (h : runCheckers bytes (primaryFormatsFromExtension extension) = some r) :
    getFormat bytes extension = some r := by
  simp only [getFormat, h]

/-- When the primary pass finds nothing, `getFormat` is the fallback pass
over all remaining matchers in enumeration order. -/
theorem getFormat_of_primary_none (bytes : Bytes) (extension : String)
    (h : runCheckers bytes (primaryFormatsFromExtension extension) = none) :
    getFormat bytes extension =
      runCheckers bytes (allFormatNames.filter
        (fun f => !((primaryFormatsFromExtension extension).contains f))) := by
  simp only [getFormat, h]

/-- C1 counterexample: the claim asserts that an APNG buffer carrying the
extension `apng` also yields a valid extension verdict; on the code the
extension `apng` has no primary candidates, the fallback pass tests the
`png` matcher first (which accepts any PNG signature), so the detected
format is `png`, and `isExtensionValid("png","apng")` is the explicit
`false` special case — the verdict is invalid. -/
theorem c1_counterexample :
    checkBytes apngSample pngSignature 0 = true ∧ isAPNG apngSample = true ∧
    (getFormat apngSample "apng").map Prod.fst = some "png" ∧
    extensionVerdict apngSample "apng" = false := by decide

/-- C1 (amended): for any APNG buffer (PNG signature plus `acTL` before any
`IDAT` in the chunk walk) the extension `png` detects `apng` and is a valid
extension, but the same bytes under the extension `apng` are detected as
`png` by the fallback pass and the extension verdict is `false`; a plain
(non-animated) PNG under the extension `apng` is likewise detected as `png`
with extension verdict `false`.  In this code no buffer whatsoever validates
under the `apng` extension. -/
theorem c1_apng_extension_rules :
    (∀ bytes : Bytes, checkBytes bytes pngSignature 0 = true →
      isAPNG bytes = true →
      getFormat bytes "png" = some ("apng", some pngSignature) ∧
      extensionVerdict bytes "png" = true ∧
      getFormat bytes "apng" = some ("png", some pngSignature) ∧
      extensionVerdict bytes "apng" = false) ∧
    (∀ bytes : Bytes, checkBytes bytes pngSignature 0 = true →
      isAPNG bytes = false →
      getFormat bytes "apng" = some ("png", some pngSignature) ∧
      extensionVerdict bytes "apng" = false) := by
  have hfull : ∀ bytes : Bytes, checkBytes bytes pngSignature 0 = true →
      getFormat bytes "apng" = some ("png", some pngSignature) ∧
      extensionVerdict bytes "apng" = false := by
    intro bytes hsig
    have hpngc : checkerPng bytes = some (some pngSignature) := by
      simp [checkerPng, hsig]
    have h2 : runCheckers bytes (allFormatNames.filter
        (fun f => !((primaryFormatsFromExtension "apng").contains f))) =
        some ("png", some pngSignature) := by
      rw [show allFormatNames.filter
          (fun f => !((primaryFormatsFromExtension "apng").contains f)) =
          "png" :: ["apng", "jpeg", "gif", "webp", "svg", "bmp", "ico",
            "tiff", "jpeg2000", "avif", "heic"] from rfl]
      exact runCheckers_cons_found bytes "png" _ checkerPng _ rfl hpngc
    have hgf : getFormat bytes "apng" = some ("png", some pngSignature) := by
      rw [getFormat_of_primary_none bytes "apng" rfl]
      exact h2
    refine ⟨hgf, ?_⟩
    unfold extensionVerdict
    rw [hgf]
    decide
  constructor
  · intro bytes hsig hapng
    have hpngc : checkerPng bytes = some (some pngSignature) := by
      simp [checkerPng, hsig]
    have hapngc : checkerApng bytes = some (some pngSignature) := by
      simp [checkerApng, hpngc, hapng]
    have h1 : runCheckers bytes ["apng", "png"] =
        some ("apng", some pngSignature) :=
      runCheckers_cons_found bytes "apng" _ checkerApng _ rfl hapngc
    have hgfPng : getFormat bytes "png" = some ("apng", some pngSignature) :=
      getFormat_of_primary_found bytes "png" _
        (by rw [show primaryFormatsFromExtension "png" = ["apng", "png"]
            from rfl]; exact h1)
    have hev : extensionVerdict bytes "png" = true := by
      unfold extensionVerdict
      rw [hgfPng]
      decide
    exact ⟨hgfPng, hev, (hfull bytes hsig).1, (hfull bytes hsig).2⟩
  · intro bytes hsig _
    exact hfull bytes hsig

/-- C1 witness: the concrete APNG fixture under both extensions, and the
concrete plain PNG fixture under the `apng` extension. -/
theorem c1_witness :
    (checkBytes apngSample pngSignature 0 = true ∧ isAPNG apngSample = true ∧
      extensionVerdict apngSample "png" = true) ∧
    (checkBytes plainPngSample pngSignature 0 = true ∧
      isAPNG plainPngSample = false ∧
      extensionVerdict plainPngSample "apng" = false) :=
  ⟨⟨by decide, by decide,
    (c1_apng_extension_rules.1 apngSample (by decide) (by decide)).2.1⟩,
   ⟨by decide, by decide,
    (c1_apng_extension_rules.2 plainPngSample (by decide) (by decide)).2⟩⟩

/-- C5: a buffer that starts with the JPEG SOI marker `FF D8` but carries
the extension `png` fails both primary candidates (`apng`, `png` — the PNG
signature starts `0x89`, not `0xFF`), is detected as `jpeg` by the fallback
pass over the remaining matchers in fixed order, `isExtensionValid` rejects
the `jpeg`/`png` pairing, and the final verdict is invalid with the
extension-mismatch reason. -/
theorem c5_jpeg_renamed_as_png (bytes : Bytes)
    (h : checkBytes bytes [0xFF, 0xD8] 0 = true) :
    getFormat bytes "png" = some ("jpeg", some (bytes.take 3)) ∧
    isExtensionValid (some "jpeg") "png" = false ∧
    (analyze bytes bytes "png").isValid = false ∧
    (analyze bytes bytes "png").reason =
      some (mismatchReason "jpeg" "png") := by
  rcases bytes with _ | ⟨a, _ | ⟨b, t⟩⟩
  · exact absurd h (by simp [checkBytes])
  · exact absurd h (by simp [checkBytes, seqStartsWith])
  · obtain ⟨ha, hb⟩ : a = 255 ∧ b = 216 := by
      simpa [checkBytes, seqStartsWith] using h
    subst ha
    subst hb
    have hpng : checkerPng (255 :: 216 :: t) = none := by
      simp [checkerPng, checkBytes, seqStartsWith, pngSignature]
    have hapngc : checkerApng (255 :: 216 :: t) = none := by
      simp [checkerApng, hpng]
    have hjpeg : checkerJpeg (255 :: 216 :: t) =
        some (some ((255 :: 216 :: t).take 3)) := by
      simp [checkerJpeg, checkBytes, seqStartsWith]
    have h1 : runCheckers (255 :: 216 :: t) ["apng", "png"] = none := by
      rw [runCheckers_cons_skip _ "apng" _ checkerApng rfl hapngc,
        runCheckers_cons_skip _ "png" _ checkerPng rfl hpng]
      rfl
    have h2 : runCheckers (255 :: 216 :: t) (allFormatNames.filter
        (fun f => !((primaryFormatsFromExtension "png").contains f))) =
        some ("jpeg", some ((255 :: 216 :: t).take 3)) := by
      rw [show allFormatNames.filter
          (fun f => !((primaryFormatsFromExtension "png").contains f)) =
          "jpeg" :: ["gif", "webp", "svg", "bmp", "ico", "tiff", "jpeg2000",
            "avif", "heic"] from rfl]
      exact runCheckers_cons_found _ "jpeg" _ checkerJpeg _ rfl hjpeg
    have hgf : getFormat (255 :: 216 :: t) "png" =
        some ("jpeg", some ((255 :: 216 :: t).take 3)) := by
      rw [getFormat_of_primary_none _ "png"
        (by rw [show primaryFormatsFromExtension "png" = ["apng", "png"]
            from rfl]; exact h1)]
      exact h2
    have hext : isExtensionValid (some "jpeg") "png" = false := by decide
    refine ⟨hgf, hext, ?_, ?_⟩
    · simp [analyze, hgf, hext]
    · simp [analyze, hgf, hext]

/-- C5 witness: the four-byte JPEG `FF D8 FF D9` under the extension
`png`. -/
theorem c5_witness :
    checkBytes [0xFF, 0xD8, 0xFF, 0xD9] [0xFF, 0xD8] 0 = true ∧
    ((analyze [0xFF, 0xD8, 0xFF, 0xD9] [0xFF, 0xD8, 0xFF, 0xD9] "png").isValid
        = false ∧
      (analyze [0xFF, 0xD8, 0xFF, 0xD9] [0xFF, 0xD8, 0xFF, 0xD9] "png").reason
        = some (mismatchReason "jpeg" "png")) :=
  ⟨by decide, (c5_jpeg_renamed_as_png [0xFF, 0xD8, 0xFF, 0xD9] (by decide)).2.2⟩

/-- A cleared `isSafe` stays cleared through one controller item step. -/
theorem processMetadataItem_isSafe_of_false (ctx : AnalysisContext)
    (it : JItem) (h : ctx.isSafe = false) :
    (processMetadataItem ctx it).isSafe = false := by
  unfold processMetadataItem
  split_ifs <;> simp [h]

/-- A cleared `isSafe` stays cleared through the controller's item fold. -/
theorem foldl_processMetadataItem_isSafe_of_false (l : List JItem) :
    ∀ ctx : AnalysisContext, ctx.isSafe = false →
      (l.foldl processMetadataItem ctx).isSafe = false := by
  induction l with
  | nil => intro ctx h; simpa using h
  | cons a l ih =>
    intro ctx h
    rw [List.foldl_cons]
    exact ih _ (processMetadataItem_isSafe_of_false ctx a h)

/-- The controller's item step only appends to the reasons list. -/
theorem processMetadataItem_reasons_mono (ctx : AnalysisContext) (it : JItem)
    (r : String) (h : r ∈ ctx.reasons) :
    r ∈ (processMetadataItem ctx it).reasons := by
  unfold processMetadataItem
  split_ifs <;> simp [h]

/-- The controller's item fold only appends to the reasons list. -/
theorem foldl_processMetadataItem_reasons_mono (l : List JItem) :
    ∀ (ctx : AnalysisContext) (r : String), r ∈ ctx.reasons →
      r ∈ (l.foldl processMetadataItem ctx).reasons := by
  induction l with
  | nil => intro ctx r h; simpa using h
  | cons a l ih =>
    intro ctx r h
    rw [List.foldl_cons]
    exact ih _ r (processMetadataItem_reasons_mono ctx a r h)

/-- Folding the controller's item step over a list that contains a
missing-critical-marker item clears `isSafe` and records the missing-marker
reason, whatever the starting context. -/
theorem foldl_processMetadataItem_fatal (l : List JItem) :
    ∀ (ctx : AnalysisContext) (it : JItem), it ∈ l → it.isMissing = true →
      it.key ∈ criticalMarkers →
      (l.foldl processMetadataItem ctx).isSafe = false ∧
      jpegMissingMarkerReason it.key ∈
        (l.foldl processMetadataItem ctx).reasons := by
  induction l with
  | nil => intro ctx it hmem; cases hmem
  | cons a l ih =>
    intro ctx it hmem hmiss hcrit
    rw [List.foldl_cons]
    rcases List.mem_cons.mp hmem with heq | hmem'
    · subst heq
      have hcontains : criticalMarkers.contains it.key = true := by
        simp [hcrit]
      have hstep : processMetadataItem ctx it =
          { ctx with
            isSafe := false
            reasons := ctx.reasons ++ [jpegMissingMarkerReason it.key] } := by
        unfold processMetadataItem
        rw [if_pos hmiss, if_pos hcontains]
      rw [hstep]
      exact ⟨foldl_processMetadataItem_isSafe_of_false l _ rfl,
        foldl_processMetadataItem_reasons_mono l _ _ (by simp)⟩
    · exact ih _ it hmem' hmiss hcrit

/-- The shared marker-item block is defined whenever both possible
resumptions of the walk are. -/
theorem scanSegmentMarkerItem_isSome (bytes : Bytes) (markerCode i : Nat)
    (key : String) (addKey : Bool) (next2 nextSeg : Option SegScan)
    (h2 : next2.isSome) (hseg : nextSeg.isSome) :
    (scanSegmentMarkerItem bytes markerCode i key addKey next2 nextSeg).isSome := by
  unfold scanSegmentMarkerItem
  split_ifs <;> simp_all

/-- The segment walk never exhausts its fuel when the fuel exceeds the
remaining length (every iteration advances the index by at least one):
certifies that the `bytes.length + 1` fuel used by `scanCombined` models the
source's unbounded loop faithfully. -/
theorem scanSegment_total (bytes : Bytes) :
    ∀ fuel i, bytes.length - i < fuel → (scanSegment bytes fuel i).isSome := by
  intro fuel
  induction fuel with
  | zero => intro i h; omega
  | succ fuel ih =>
    intro i h
    by_cases h1 : i + 1 < bytes.length
    · simp only [scanSegment, if_pos h1]
      by_cases hff : byteAt bytes i ≠ 0xFF
      · rw [if_pos hff]
        exact ih (i + 1) (by omega)
      · rw [if_neg hff]
        by_cases hm2 : byteAt bytes (i + 1) = 0x00 ∨ byteAt bytes (i + 1) = 0xFF
        · rw [if_pos hm2]
          exact ih (i + 1) (by omega)
        · rw [if_neg hm2]
          rcases hl : jpegMarkers.lookup (readU16BE bytes i) with _ | abbr
          · simp only [hl]
            by_cases hres : 0xFF02 ≤ readU16BE bytes i ∧
                readU16BE bytes i ≤ 0xFFBF
            · rw [if_pos hres]
              exact scanSegmentMarkerItem_isSome bytes _ i _ false _ _
                (ih (i + 2) (by omega))
                (ih (i + readU16BE bytes (i + 2) + 2) (by omega))
            · rw [if_neg hres]
              exact ih (i + 2) (by omega)
          · simp only [hl]
            exact scanSegmentMarkerItem_isSome bytes _ i _ true _ _
              (ih (i + 2) (by omega))
              (ih (i + readU16BE bytes (i + 2) + 2) (by omega))
    · simp [scanSegment, h1]

/-- C9: whenever the JPEG scanner's two passes complete (the combined scan
reaches its missing-marker cross-check), every marker of the critical set
`{SOI, SOF0, SOS, EOI}` absent from the combined found-set is reported as a
`isMissing` metadata item, which the controller's metadata step treats as
fatal — `isSafe` is cleared and the missing-marker reason recorded, from any
starting context — while every absent marker of the common set
`{DQT, DHT, APP0}` is also reported as a `isMissing` item but the
controller's item step leaves the context untouched on any missing item
whose key is not critical, so it never fails the verdict. -/
theorem c9_missing_marker_verdicts (bytes : Bytes) (md : List JItem)
    (keys : List String)
    (hscan : scanAllMarkers bytes = some (.ok (md, keys))) :
    (∀ k, k ∈ criticalMarkers → k ∉ keys →
      (∃ it, it ∈ md ∧ it.key = k ∧ it.isMissing = true) ∧
      ∀ ctx : AnalysisContext,
        (processMetadataResult ctx ⟨[], [], md, false⟩).isSafe = false ∧
        jpegMissingMarkerReason k ∈
          (processMetadataResult ctx ⟨[], [], md, false⟩).reasons) ∧
    (∀ k, k ∈ commonMarkers → k ∉ keys →
      ∃ it, it ∈ md ∧ it.key = k ∧ it.isMissing = true) ∧
    (∀ (ctx : AnalysisContext) (it : JItem), it.isMissing = true →
      it.key ∉ criticalMarkers → processMetadataItem ctx it = ctx) := by
  obtain ⟨md0, hmd⟩ : ∃ md0, md = md0 ++ missingItems keys := by
    unfold scanAllMarkers at hscan
    rcases hc : scanCombined bytes with _ | e
    · rw [hc] at hscan
      simp at hscan
    · rw [hc] at hscan
      cases e with
      | error u => simp [Except.map] at hscan
      | ok pr =>
        simp [Except.map] at hscan
        obtain ⟨h1, h2⟩ := hscan
        subst h2
        exact ⟨pr.1, h1.symm⟩
  subst hmd
  refine ⟨fun k hk hnk => ?_, fun k hk hnk => ?_,
    fun ctx it hmiss hncrit => ?_⟩
  · have hitem : (⟨k, none, true⟩ : JItem) ∈ missingItems keys := by
      unfold missingItems
      exact List.mem_map.mpr ⟨k, List.mem_filter.mpr
        ⟨List.mem_append.mpr (Or.inl hk), by simp [hnk]⟩, rfl⟩
    have hmemmd : (⟨k, none, true⟩ : JItem) ∈ md0 ++ missingItems keys :=
      List.mem_append.mpr (Or.inr hitem)
    refine ⟨⟨⟨k, none, true⟩, hmemmd, rfl, rfl⟩, fun ctx => ?_⟩
    have hred : processMetadataResult ctx
        ⟨[], [], md0 ++ missingItems keys, false⟩ =
        (md0 ++ missingItems keys).foldl processMetadataItem ctx := by
      simp [processMetadataResult]
    rw [hred]
    exact foldl_processMetadataItem_fatal (md0 ++ missingItems keys) ctx
      ⟨k, none, true⟩ hmemmd rfl hk
  · have hitem : (⟨k, none, true⟩ : JItem) ∈ missingItems keys := by
      unfold missingItems
      exact List.mem_map.mpr ⟨k, List.mem_filter.mpr
        ⟨List.mem_append.mpr (Or.inr hk), by simp [hnk]⟩, rfl⟩
    exact ⟨⟨k, none, true⟩, List.mem_append.mpr (Or.inr hitem), rfl, rfl⟩
  · unfold processMetadataItem
    rw [if_pos hmiss, if_neg (by simpa using hncrit)]

/-- C9 witness: the empty buffer completes both passes with an empty
found-set, so all critical markers are reported missing (SOI shown) and the
controller marks the file unsafe with the missing-marker reason. -/
theorem c9_witness :
    scanAllMarkers [] = some (Except.ok (jpegEmptyScanItems, [])) ∧
    (∃ it, it ∈ jpegEmptyScanItems ∧ it.key = "SOI" ∧ it.isMissing = true) ∧
    (processMetadataResult ⟨true, false, []⟩
      ⟨[], [], jpegEmptyScanItems, false⟩).isSafe = false ∧
    jpegMissingMarkerReason "SOI" ∈
      (processMetadataResult ⟨true, false, []⟩
        ⟨[], [], jpegEmptyScanItems, false⟩).reasons :=
  ⟨by decide,
   ((c9_missing_marker_verdicts [] jpegEmptyScanItems [] (by decide)).1 "SOI"
     (by decide) (by decide)).1,
   (((c9_missing_marker_verdicts [] jpegEmptyScanItems [] (by decide)).1 "SOI"
     (by decide) (by decide)).2 ⟨true, false, []⟩).1,
   (((c9_missing_marker_verdicts [] jpegEmptyScanItems [] (by decide)).1 "SOI"
     (by decide) (by decide)).2 ⟨true, false, []⟩).2⟩

end ImageSanitizer
